import Mathlib

/-!
Verification development for the OCR result pipeline of the repository
(src/app/services/visionApi.ts and src/app/Camera.tsx).

Numbers of the script language are modelled as rationals. Optional JSON
fields are modelled as Option. Thrown errors are modelled as the message
string they carry, exactly as constructed by the source.
-/

/-- One vertex of a bounding polygon; x and y may each be absent
(visionApi.ts lines 4-7). -/
structure Vertex where
  x : Option ℚ
  y : Option ℚ
deriving DecidableEq, Repr

/-- A bounding polygon (visionApi.ts lines 3-8). -/
structure BoundingPoly where
  vertices : List Vertex
deriving DecidableEq, Repr

/-- One text annotation of the provider response: a description string and a
bounding polygon (visionApi.ts lines 1-9). Named TextAnn here. -/
structure TextAnn where
  description : String
  boundingPoly : BoundingPoly
deriving DecidableEq, Repr

/-- The provider error object: code and message (visionApi.ts lines 17-20). -/
structure ApiError where
  code : ℤ
  message : String
deriving DecidableEq, Repr

/-- One element of the responses array (visionApi.ts lines 12-21).
fullTextAnn models the text field of fullTextAnnotation. -/
structure SingleResponse where
  textAnns : Option (List TextAnn)
  fullTextAnn : Option String
  err : Option ApiError
deriving DecidableEq, Repr

/-- The parsed provider response body (visionApi.ts lines 11-22). -/
structure VisionApiResponse where
  responses : List SingleResponse
deriving DecidableEq, Repr

/-- An axis-aligned bounding box (visionApi.ts lines 62-67). -/
structure Box where
  x : ℚ
  y : ℚ
  width : ℚ
  height : ℚ
deriving DecidableEq, Repr

/-- One produced word of the normalized model (visionApi.ts lines 26-34). -/
structure Word where
  id : String
  text : String
  confidence : ℚ
  x : ℚ
  y : ℚ
  width : ℚ
  height : ℚ
deriving DecidableEq, Repr

/-- The normalized OCR output (visionApi.ts lines 24-35). -/
structure ExtractedText where
  fullText : String
  words : List Word
deriving DecidableEq, Repr

/-- Minimum of a list of rationals, folded from a start value: models
Math.min applied to a spread nonempty argument list, whose start is the
first element. -/
def listMin (a : ℚ) (l : List ℚ) : ℚ := l.foldl min a

/-- Maximum of a list of rationals, folded from a start value: models
Math.max applied to a spread nonempty argument list. -/
def listMax (a : ℚ) (l : List ℚ) : ℚ := l.foldl max a

/-- The x coordinate of a vertex with the or-zero default of the source
(v.x || 0, visionApi.ts line 57): an absent coordinate is 0, and the value 0
stays 0, so this is exactly Option.getD. -/
def vertX (v : Vertex) : ℚ := v.x.getD 0

/-- The y coordinate of a vertex with the or-zero default (visionApi.ts
line 59). -/
def vertY (v : Vertex) : ℚ := v.y.getD 0

/-- Shallow embedding of convertToScreenCoordinates (visionApi.ts lines
42-71). Fewer than 4 vertices give null; otherwise the extrema of the
per-axis coordinates (missing ones taken as 0) form the box. The screen
dimensions are accepted but unused by the arithmetic, as in the source. -/
def convertToScreenCoordinates (vertices : List Vertex)
    (screenWidth screenHeight : ℚ) : Option Box :=
  if vertices.length < 4 then
    none
  else
    match vertices with
    | [] => none
    | v0 :: vs =>
      let minX := listMin (vertX v0) (vs.map vertX)
      let maxX := listMax (vertX v0) (vs.map vertX)
      let minY := listMin (vertY v0) (vs.map vertY)
      let maxY := listMax (vertY v0) (vs.map vertY)
      some { x := minX, y := minY, width := maxX - minX, height := maxY - minY }

/-- The or operator of the script language on an optional string against a
string default: an absent or empty string is falsy and yields the default. -/
def jsOrString (a : Option String) (b : String) : String :=
  match a with
  | some s => if s = "" then b else s
  | none => b

/-- Prefix test on character lists, used to model substring search. -/
def isPrefixList : List Char → List Char → Bool
  | [], _ => true
  | _ :: _, [] => false
  | a :: as, b :: bs => a == b && isPrefixList as bs

/-- Substring occurrence test on character lists. -/
def hasSub : List Char → List Char → Bool
  | [], pat => pat.isEmpty
  | a :: ls, pat => isPrefixList pat (a :: ls) || hasSub ls pat

/-- Model of the includes method of script strings: whether pat occurs as a
contiguous substring of s (Camera.tsx line 103). -/
def jsIncludes (s pat : String) : Bool := hasSub s.data pat.data

/-- First element of the responses array of a parsed body, as accessed with
optional chaining in the source (visionApi.ts line 143 and on). -/
def firstResp (r : VisionApiResponse) : Option SingleResponse := r.responses.head?

/-- The error object of the first response, when present (visionApi.ts
line 143). -/
def respErr (r : VisionApiResponse) : Option ApiError :=
  (firstResp r).bind (fun s => s.err)

/-- The annotation list of the first response with the or-empty default of
the source (visionApi.ts line 150). -/
def respTextAnns (r : VisionApiResponse) : List TextAnn :=
  ((firstResp r).bind (fun s => s.textAnns)).getD []

/-- The full-text field of the first response (visionApi.ts line 151). -/
def respFullTextAnn (r : VisionApiResponse) : Option String :=
  (firstResp r).bind (fun s => s.fullTextAnn)

/-- The numeric field access coords?.x || 0 of the source (visionApi.ts
lines 177-180): absent coordinates become 0, and a present 0 stays 0. -/
def jsOrZero (a : Option ℚ) : ℚ := a.getD 0

/-- Builds one Word from the annotation at position index of the filtered
sequence (visionApi.ts lines 164-185). -/
def mkWord (screenWidth screenHeight : ℚ) (index : Nat) (a : TextAnn) : Word :=
  let coords := convertToScreenCoordinates a.boundingPoly.vertices screenWidth screenHeight
  { id := "word-" ++ toString index
    text := a.description
    confidence := 0.9
    x := jsOrZero (coords.map (fun c => c.x))
    y := jsOrZero (coords.map (fun c => c.y))
    width := jsOrZero (coords.map (fun c => c.width))
    height := jsOrZero (coords.map (fun c => c.height)) }

/-- Maps each annotation through mkWord together with its 0-based position,
modelling the indexed map of the source (visionApi.ts line 164). -/
def buildWords (screenWidth screenHeight : ℚ) : Nat → List TextAnn → List Word
  | _, [] => []
  | i, a :: rest => mkWord screenWidth screenHeight i a :: buildWords screenWidth screenHeight (i + 1) rest

/-- The message of the error thrown when the provider payload carries an
error object (visionApi.ts line 147). -/
def providerErrorMsg (e : ApiError) : String := "Vision API error: " ++ e.message

/-- Shallow embedding of the response-processing part of detectText, from
the parsed body to the returned ExtractedText or the thrown error message
(visionApi.ts lines 143-198). -/
def processResponse (result : VisionApiResponse) (screenWidth screenHeight : ℚ) :
    Except String ExtractedText :=
  match respErr result with
  | some e => .error (providerErrorMsg e)
  | none =>
    let anns := respTextAnns result
    let fullText := jsOrString (respFullTextAnn result)
      (jsOrString ((anns.head?).map (fun a => a.description)) "")
    let words := buildWords screenWidth screenHeight 0 (anns.drop 1)
    .ok { fullText := fullText, words := words }

/-- The configuration error message (visionApi.ts line 84). -/
def cfgErrorMsg : String :=
  "Google Cloud API key not configured. Please set EXPO_PUBLIC_GOOGLE_CLOUD_API_KEY in your environment."

/-- The outcome of the one fetch call of detectText: either a non-ok HTTP
response with its status and body text, or an ok response whose body parsed
to a VisionApiResponse. -/
inductive TransportOutcome where
  | failure (status : ℕ) (body : String)
  | success (result : VisionApiResponse)
deriving DecidableEq, Repr

/-- The result of a detectText run: the returned value or thrown error
message, together with the number of network calls issued. -/
structure DetectResult where
  outcome : Except String ExtractedText
  networkCalls : ℕ
deriving Repr

/-- Shallow embedding of detectText (visionApi.ts lines 74-212). The module
constant GOOGLE_CLOUD_API_KEY is passed as apiKey; an absent or empty value
is falsy and fails before the fetch, so with zero network calls. The single
fetch is modelled by the supplied TransportOutcome and counted. The
surrounding try-catch of the source only logs and rethrows, so it is the
identity on outcomes. -/
def detectText (apiKey : Option String) (base64Image : String)
    (screenWidth screenHeight : ℚ) (transport : TransportOutcome) : DetectResult :=
  match apiKey with
  | none => { outcome := .error cfgErrorMsg, networkCalls := 0 }
  | some k =>
    if k = "" then { outcome := .error cfgErrorMsg, networkCalls := 0 }
    else
      match transport with
      | .failure status body =>
        { outcome := .error ("Vision API request failed: " ++ toString status ++ " - " ++ body)
          networkCalls := 1 }
      | .success result =>
        { outcome := processResponse result screenWidth screenHeight, networkCalls := 1 }

/-- The constant demo full text (visionApi.ts lines 219-230). -/
def demoFullText : String :=
  "Welcome to OCR Demo!\n\nThis is a sample text that would be extracted from an image using Google Cloud Vision API.\n\nSome example text might include:\n• Business cards\n• Street signs\n• Documents\n• Handwritten notes\n• Book pages\n\nThe text detection feature can recognize text in many languages and formats."

/-- Shallow embedding of getDemoText (visionApi.ts lines 215-273). -/
def getDemoText (screenWidth screenHeight : ℚ) : ExtractedText :=
  { fullText := demoFullText
    words := [
      { id := "word-1", text := "Welcome", confidence := 0.95,
        x := screenWidth * 0.1, y := screenHeight * 0.2,
        width := screenWidth * 0.2, height := screenHeight * 0.05 },
      { id := "word-2", text := "OCR", confidence := 0.92,
        x := screenWidth * 0.35, y := screenHeight * 0.2,
        width := screenWidth * 0.1, height := screenHeight * 0.05 },
      { id := "word-3", text := "Demo!", confidence := 0.88,
        x := screenWidth * 0.5, y := screenHeight * 0.2,
        width := screenWidth * 0.15, height := screenHeight * 0.05 }] }

/-- The state of the Cam component that the analyze cycle touches
(Camera.tsx lines 24-28). -/
structure CamState where
  capturedImageUri : Option String
  extractedText : Option ExtractedText
  isAnalyzing : Bool
  analysisComplete : Bool
deriving DecidableEq, Repr

/-- The user-facing dialogs the analyze cycle can raise (Camera.tsx lines
105-116 and 132). -/
inductive AlertMsg where
  | setupRequired
  | visionApiError (msg : String)
  | genericFailure
deriving DecidableEq, Repr

/-- The error-kind classifier of the orchestrator: the source decides the
configuration case by testing whether the message includes the words not
configured (Camera.tsx line 103). -/
def classifyAsConfig (msg : String) : Bool := jsIncludes msg "not configured"

/-- Shallow embedding of analyzeImage (Camera.tsx lines 45-138). The image
preparation result is modelled by prepBase64: none when no base64 data was
produced (the source then throws into the outer catch, which raises the
generic dialog). On prepared data, the detectText outcome decides: ok stores
the result; an error raises the setup dialog when classified as a missing
configuration, else the API-error dialog, and stores the demo content. The
finally block always clears isAnalyzing and sets analysisComplete. -/
def analyzeImage (screenWidth screenHeight : ℚ) (s : CamState)
    (prepBase64 : Option String) (detectOutcome : Except String ExtractedText) :
    CamState × List AlertMsg :=
  match prepBase64 with
  | none =>
    ({ s with isAnalyzing := false, analysisComplete := true }, [AlertMsg.genericFailure])
  | some _ =>
    match detectOutcome with
    | .ok t =>
      ({ s with extractedText := some t, isAnalyzing := false, analysisComplete := true }, [])
    | .error m =>
      let alert := if classifyAsConfig m then AlertMsg.setupRequired else AlertMsg.visionApiError m
      ({ s with
          extractedText := some (getDemoText screenWidth screenHeight)
          isAnalyzing := false
          analysisComplete := true }, [alert])

/-- Whether the capture control is shown and enabled, from the render logic
(Camera.tsx lines 349-380): shown when analysisComplete is false, enabled
when isAnalyzing is false. -/
def captureControlEnabled (s : CamState) : Bool :=
  !s.analysisComplete && !s.isAnalyzing

/-- The Idle state of the spec state machine mapped onto the component
state: no current result, no captured image held, and the capture control
shown and enabled. -/
def isIdleState (s : CamState) : Bool :=
  s.extractedText.isNone && s.capturedImageUri.isNone && captureControlEnabled s

/-- The Displaying-like terminal of a cycle in the component: a captured
image is held and analysisComplete is set, so the render shows the result
surface and the reset control instead of the capture control (Camera.tsx
lines 240 and 349). -/
def showsResultSurface (s : CamState) : Bool :=
  s.capturedImageUri.isSome && s.analysisComplete

theorem listMin_cons (a b : ℚ) (l : List ℚ) : listMin a (b :: l) = listMin (min a b) l := rfl

theorem listMax_cons (a b : ℚ) (l : List ℚ) : listMax a (b :: l) = listMax (max a b) l := rfl

theorem listMin_le_init (a : ℚ) (l : List ℚ) : listMin a l ≤ a := by
  induction l generalizing a with
  | nil => exact le_refl a
  | cons b t ih =>
    rw [listMin_cons]
    exact le_trans (ih (min a b)) (min_le_left a b)

theorem listMin_le_mem (a : ℚ) (l : List ℚ) (x : ℚ) (hx : x ∈ l) : listMin a l ≤ x := by
  induction l generalizing a with
  | nil => cases hx
  | cons b t ih =>
    rw [listMin_cons]
    rcases List.mem_cons.mp hx with h | h
    · subst h
      exact le_trans (listMin_le_init (min a x) t) (min_le_right a x)
    · exact ih (min a b) h

theorem listMin_eq_init_or_mem (a : ℚ) (l : List ℚ) : listMin a l = a ∨ listMin a l ∈ l := by
  induction l generalizing a with
  | nil => exact Or.inl rfl
  | cons b t ih =>
    rw [listMin_cons]
    rcases ih (min a b) with h | h
    · rcases min_choice a b with hm | hm
      · exact Or.inl (h.trans hm)
      · exact Or.inr (List.mem_cons.mpr (Or.inl (h.trans hm)))
    · exact Or.inr (List.mem_cons.mpr (Or.inr h))

theorem init_le_listMax (a : ℚ) (l : List ℚ) : a ≤ listMax a l := by
  induction l generalizing a with
  | nil => exact le_refl a
  | cons b t ih =>
    rw [listMax_cons]
    exact le_trans (le_max_left a b) (ih (max a b))

theorem mem_le_listMax (a : ℚ) (l : List ℚ) (x : ℚ) (hx : x ∈ l) : x ≤ listMax a l := by
  induction l generalizing a with
  | nil => cases hx
  | cons b t ih =>
    rw [listMax_cons]
    rcases List.mem_cons.mp hx with h | h
    · subst h
      exact le_trans (le_max_right a x) (init_le_listMax (max a x) t)
    · exact ih (max a b) h

theorem listMax_eq_init_or_mem (a : ℚ) (l : List ℚ) : listMax a l = a ∨ listMax a l ∈ l := by
  induction l generalizing a with
  | nil => exact Or.inl rfl
  | cons b t ih =>
    rw [listMax_cons]
    rcases ih (max a b) with h | h
    · rcases max_choice a b with hm | hm
      · exact Or.inl (h.trans hm)
      · exact Or.inr (List.mem_cons.mpr (Or.inl (h.trans hm)))
    · exact Or.inr (List.mem_cons.mpr (Or.inr h))

/-- C4: for every vertex sequence shorter than 4, the coordinate mapper
returns null rather than a degenerate box or an error. -/
theorem mapToBox_short_none (vs : List Vertex) (w h : ℚ) (hlen : vs.length < 4) :
    convertToScreenCoordinates vs w h = none := by
  simp [convertToScreenCoordinates, hlen]

theorem mapToBox_short_none_witness :
    ([⟨some 1, some 2⟩, ⟨none, none⟩, ⟨some 3, none⟩] : List Vertex).length < 4 ∧
    convertToScreenCoordinates [⟨some 1, some 2⟩, ⟨none, none⟩, ⟨some 3, none⟩] 5 7 = none :=
  ⟨by decide, mapToBox_short_none [⟨some 1, some 2⟩, ⟨none, none⟩, ⟨some 3, none⟩] 5 7 (by decide)⟩

/-- C3: for every vertex sequence of length at least 4, the coordinate
mapper returns a box whose x and y are the minima of the per-axis
coordinates, whose far corner x plus width and y plus height are the
maxima (so width and height are max minus min), with every missing
coordinate taken as 0 and no vertex dropped, and width and height are
nonnegative. -/
theorem mapToBox_min_max (vs : List Vertex) (w h : ℚ) (hlen : 4 ≤ vs.length) :
    ∃ b, convertToScreenCoordinates vs w h = some b ∧
      (∀ v ∈ vs, b.x ≤ vertX v ∧ b.y ≤ vertY v) ∧
      (∃ v ∈ vs, vertX v = b.x) ∧ (∃ v ∈ vs, vertY v = b.y) ∧
      (∀ v ∈ vs, vertX v ≤ b.x + b.width ∧ vertY v ≤ b.y + b.height) ∧
      (∃ v ∈ vs, vertX v = b.x + b.width) ∧ (∃ v ∈ vs, vertY v = b.y + b.height) ∧
      0 ≤ b.width ∧ 0 ≤ b.height := by
  match vs, hlen with
  | v0 :: rest, hlen =>
    have hnotlt : ¬ ((v0 :: rest).length < 4) := not_lt.mpr hlen
    refine ⟨_, by rw [convertToScreenCoordinates, if_neg hnotlt], ?_, ?_, ?_, ?_, ?_, ?_, ?_, ?_⟩
    · intro v hv
      rcases List.mem_cons.mp hv with h0 | hmem
      · subst h0
        exact ⟨listMin_le_init _ _, listMin_le_init _ _⟩
      · exact ⟨listMin_le_mem _ _ _ (List.mem_map_of_mem vertX hmem),
          listMin_le_mem _ _ _ (List.mem_map_of_mem vertY hmem)⟩
    · rcases listMin_eq_init_or_mem (vertX v0) (rest.map vertX) with h | h
      · exact ⟨v0, List.mem_cons_self v0 rest, h.symm⟩
      · rcases List.mem_map.mp h with ⟨v, hv, hvx⟩
        exact ⟨v, List.mem_cons_of_mem v0 hv, hvx⟩
    · rcases listMin_eq_init_or_mem (vertY v0) (rest.map vertY) with h | h
      · exact ⟨v0, List.mem_cons_self v0 rest, h.symm⟩
      · rcases List.mem_map.mp h with ⟨v, hv, hvy⟩
        exact ⟨v, List.mem_cons_of_mem v0 hv, hvy⟩
    · intro v hv
      constructor
      · rw [add_sub_cancel]
        rcases List.mem_cons.mp hv with h0 | hmem
        · subst h0; exact init_le_listMax _ _
        · exact mem_le_listMax _ _ _ (List.mem_map_of_mem vertX hmem)
      · rw [add_sub_cancel]
        rcases List.mem_cons.mp hv with h0 | hmem
        · subst h0; exact init_le_listMax _ _
        · exact mem_le_listMax _ _ _ (List.mem_map_of_mem vertY hmem)
    · rw [add_sub_cancel]
      rcases listMax_eq_init_or_mem (vertX v0) (rest.map vertX) with h | h
      · exact ⟨v0, List.mem_cons_self v0 rest, h.symm⟩
      · rcases List.mem_map.mp h with ⟨v, hv, hvx⟩
        exact ⟨v, List.mem_cons_of_mem v0 hv, hvx⟩
    · rw [add_sub_cancel]
      rcases listMax_eq_init_or_mem (vertY v0) (rest.map vertY) with h | h
      · exact ⟨v0, List.mem_cons_self v0 rest, h.symm⟩
      · rcases List.mem_map.mp h with ⟨v, hv, hvy⟩
        exact ⟨v, List.mem_cons_of_mem v0 hv, hvy⟩
    · exact sub_nonneg.mpr (le_trans (listMin_le_init _ _) (init_le_listMax _ _))
    · exact sub_nonneg.mpr (le_trans (listMin_le_init _ _) (init_le_listMax _ _))

theorem mapToBox_min_max_witness :
    4 ≤ ([⟨some 0, some 0⟩, ⟨some 10, none⟩, ⟨some 10, some 5⟩, ⟨none, some 5⟩] : List Vertex).length ∧
    (∃ b, convertToScreenCoordinates
        [⟨some 0, some 0⟩, ⟨some 10, none⟩, ⟨some 10, some 5⟩, ⟨none, some 5⟩] 100 200 = some b ∧
      (∀ v ∈ ([⟨some 0, some 0⟩, ⟨some 10, none⟩, ⟨some 10, some 5⟩, ⟨none, some 5⟩] : List Vertex),
        b.x ≤ vertX v ∧ b.y ≤ vertY v) ∧
      (∃ v ∈ ([⟨some 0, some 0⟩, ⟨some 10, none⟩, ⟨some 10, some 5⟩, ⟨none, some 5⟩] : List Vertex),
        vertX v = b.x) ∧
      (∃ v ∈ ([⟨some 0, some 0⟩, ⟨some 10, none⟩, ⟨some 10, some 5⟩, ⟨none, some 5⟩] : List Vertex),
        vertY v = b.y) ∧
      (∀ v ∈ ([⟨some 0, some 0⟩, ⟨some 10, none⟩, ⟨some 10, some 5⟩, ⟨none, some 5⟩] : List Vertex),
        vertX v ≤ b.x + b.width ∧ vertY v ≤ b.y + b.height) ∧
      (∃ v ∈ ([⟨some 0, some 0⟩, ⟨some 10, none⟩, ⟨some 10, some 5⟩, ⟨none, some 5⟩] : List Vertex),
        vertX v = b.x + b.width) ∧
      (∃ v ∈ ([⟨some 0, some 0⟩, ⟨some 10, none⟩, ⟨some 10, some 5⟩, ⟨none, some 5⟩] : List Vertex),
        vertY v = b.y + b.height) ∧
      0 ≤ b.width ∧ 0 ≤ b.height) :=
  ⟨by decide,
    mapToBox_min_max [⟨some 0, some 0⟩, ⟨some 10, none⟩, ⟨some 10, some 5⟩, ⟨none, some 5⟩]
      100 200 (by decide)⟩

theorem buildWords_length (w h : ℚ) (i : ℕ) (l : List TextAnn) :
    (buildWords w h i l).length = l.length := by
  induction l generalizing i with
  | nil => rfl
  | cons a t ih => simp [buildWords, ih]

theorem buildWords_get? (w h : ℚ) (i j : ℕ) (l : List TextAnn) :
    (buildWords w h i l).get? j = (l.get? j).map (mkWord w h (i + j)) := by
  induction l generalizing i j with
  | nil => simp [buildWords]
  | cons a t ih =>
    cases j with
    | zero => simp [buildWords]
    | succ j =>
      rw [buildWords]
      show (buildWords w h (i + 1) t).get? j = _
      rw [ih (i + 1) j, Nat.add_assoc, Nat.add_comm 1 j]
      rfl

theorem mkWord_text (w h : ℚ) (i : ℕ) (a : TextAnn) :
    (mkWord w h i a).text = a.description := rfl

theorem mkWord_confidence (w h : ℚ) (i : ℕ) (a : TextAnn) :
    (mkWord w h i a).confidence = 0.9 := rfl

theorem mkWord_id (w h : ℚ) (i : ℕ) (a : TextAnn) :
    (mkWord w h i a).id = "word-" ++ toString i := rfl

theorem processResponse_ok (result : VisionApiResponse) (w h : ℚ)
    (hne : respErr result = none) :
    processResponse result w h = .ok
      { fullText := jsOrString (respFullTextAnn result)
          (jsOrString (((respTextAnns result).head?).map (fun a => a.description)) "")
        words := buildWords w h 0 ((respTextAnns result).drop 1) } := by
  unfold processResponse
  rw [hne]

/-- C1: for every provider response with at least one text annotation that
processes cleanly, the produced words skip the first annotation: the length
is the annotation count minus one, the word at position i carries the
description of annotation i plus 1, every confidence is the fixed default
0.9, and every id is word- followed by the 0-based position. -/
theorem detectText_words_spec (result : VisionApiResponse) (w h : ℚ)
    (hne : respErr result = none) (hlen : 1 ≤ (respTextAnns result).length) :
    ∃ t, processResponse result w h = .ok t ∧
      t.words.length = (respTextAnns result).length - 1 ∧
      (∀ i : ℕ, (t.words.get? i).map (fun wd => wd.text)
        = ((respTextAnns result).get? (i + 1)).map (fun a => a.description)) ∧
      (∀ i : ℕ, ∀ wd, t.words.get? i = some wd →
        wd.confidence = 0.9 ∧ wd.id = "word-" ++ toString i) := by
  refine ⟨_, processResponse_ok result w h hne, ?_, ?_, ?_⟩
  · simp [buildWords_length]
  · intro i
    rw [buildWords_get?, List.get?_drop, Nat.add_comm 1 i, Nat.zero_add]
    cases hg : (respTextAnns result).get? (i + 1) with
    | none => rfl
    | some a => simp [mkWord_text]
  · intro i wd hwd
    rw [buildWords_get?, Nat.zero_add] at hwd
    cases hg : ((respTextAnns result).drop 1).get? i with
    | none => rw [hg] at hwd; cases hwd
    | some a =>
      rw [hg] at hwd
      cases hwd
      exact ⟨mkWord_confidence w h i a, mkWord_id w h i a⟩

def c1resp : VisionApiResponse :=
  ⟨[{ textAnns := some [
        { description := "ALL TEXT", boundingPoly := ⟨[]⟩ },
        { description := "Hello", boundingPoly :=
            ⟨[⟨some 0, some 0⟩, ⟨some 10, some 0⟩, ⟨some 10, some 5⟩, ⟨some 0, some 5⟩]⟩ }]
      fullTextAnn := none
      err := none }]⟩

theorem detectText_words_spec_witness :
    respErr c1resp = none ∧ 1 ≤ (respTextAnns c1resp).length ∧
    (∃ t, processResponse c1resp 100 200 = .ok t ∧
      t.words.length = (respTextAnns c1resp).length - 1 ∧
      (∀ i : ℕ, (t.words.get? i).map (fun wd => wd.text)
        = ((respTextAnns c1resp).get? (i + 1)).map (fun a => a.description)) ∧
      (∀ i : ℕ, ∀ wd, t.words.get? i = some wd →
        wd.confidence = 0.9 ∧ wd.id = "word-" ++ toString i)) :=
  ⟨rfl, by decide, detectText_words_spec c1resp 100 200 rfl (by decide)⟩

theorem jsOrString_some_empty_default (s : String) : jsOrString (some s) "" = s := by
  by_cases hs : s = "" <;> simp [jsOrString, hs]

def c2resp : VisionApiResponse :=
  ⟨[{ textAnns := some [{ description := "foo", boundingPoly := ⟨[]⟩ }]
      fullTextAnn := some ""
      err := none }]⟩

/-- C2 counterexample: a response whose full-text field is present but
empty. The claim requires fullText to equal that field exactly, so the
empty string; the code treats the empty string as falsy and falls back to
the first annotation description, producing foo. -/
theorem fullText_empty_override_cex :
    respFullTextAnn c2resp = some "" ∧
    (processResponse c2resp 1 1).map (fun t => t.fullText) = Except.ok "foo" ∧
    ("foo" : String) ≠ "" := by
  refine ⟨rfl, ?_, by decide⟩
  rw [processResponse_ok c2resp 1 1 rfl]
  rfl

/-- C2 amended: the preference order holds with presence replaced by
non-emptiness: a present and non-empty full-text field is returned exactly;
when it is absent or empty, fullText is the description of the first
annotation when one exists (so the empty string when that description is
empty), and when additionally no annotations exist, fullText is empty and
words is empty. -/
theorem fullText_preference (result : VisionApiResponse) (w h : ℚ)
    (hne : respErr result = none) :
    ∃ t, processResponse result w h = .ok t ∧
      (∀ s, respFullTextAnn result = some s → s ≠ "" → t.fullText = s) ∧
      ((respFullTextAnn result = none ∨ respFullTextAnn result = some "") →
        t.fullText = (((respTextAnns result).head?).map (fun a => a.description)).getD "") ∧
      ((respFullTextAnn result = none ∨ respFullTextAnn result = some "") →
        respTextAnns result = [] → t.fullText = "" ∧ t.words = []) := by
  refine ⟨_, processResponse_ok result w h hne, ?_, ?_, ?_⟩
  · intro s hs hsne
    rw [hs]
    simp [jsOrString, hsne]
  · intro hcase
    have hfall : jsOrString (respFullTextAnn result)
        (jsOrString (((respTextAnns result).head?).map (fun a => a.description)) "")
        = jsOrString (((respTextAnns result).head?).map (fun a => a.description)) "" := by
      rcases hcase with hc | hc <;> rw [hc] <;> simp [jsOrString]
    show jsOrString _ _ = _
    rw [hfall]
    cases hh : (respTextAnns result).head? with
    | none => rfl
    | some a => simp [jsOrString_some_empty_default]
  · intro hcase hanns
    constructor
    · show jsOrString _ _ = ""
      rw [hanns]
      rcases hcase with hc | hc <;> rw [hc] <;> rfl
    · show buildWords w h 0 ((respTextAnns result).drop 1) = []
      rw [hanns]
      rfl

theorem fullText_preference_witness :
    respErr c2resp = none ∧
    (∃ t, processResponse c2resp 3 4 = .ok t ∧
      (∀ s, respFullTextAnn c2resp = some s → s ≠ "" → t.fullText = s) ∧
      ((respFullTextAnn c2resp = none ∨ respFullTextAnn c2resp = some "") →
        t.fullText = (((respTextAnns c2resp).head?).map (fun a => a.description)).getD "") ∧
      ((respFullTextAnn c2resp = none ∨ respFullTextAnn c2resp = some "") →
        respTextAnns c2resp = [] → t.fullText = "" ∧ t.words = [])) :=
  ⟨rfl, fullText_preference c2resp 3 4 rfl⟩

/-- C8: for every annotation of the filtered sequence whose bounding
polygon is unmappable, the produced word is still present at its position,
keeps its text, and carries 0 for x, y, width and height. -/
theorem detectText_zero_box (result : VisionApiResponse) (w h : ℚ) (i : ℕ) (a : TextAnn)
    (hne : respErr result = none)
    (ha : (respTextAnns result).get? (i + 1) = some a)
    (hcoords : convertToScreenCoordinates a.boundingPoly.vertices w h = none) :
    ∃ t, processResponse result w h = .ok t ∧
      ∃ wd, t.words.get? i = some wd ∧ wd.text = a.description ∧
        wd.x = 0 ∧ wd.y = 0 ∧ wd.width = 0 ∧ wd.height = 0 := by
  refine ⟨_, processResponse_ok result w h hne, mkWord w h i a, ?_, ?_, ?_, ?_, ?_, ?_⟩
  · rw [buildWords_get?, Nat.zero_add, List.get?_drop, Nat.add_comm 1 i, ha]
    rfl
  · exact mkWord_text w h i a
  · simp [mkWord, hcoords, jsOrZero]
  · simp [mkWord, hcoords, jsOrZero]
  · simp [mkWord, hcoords, jsOrZero]
  · simp [mkWord, hcoords, jsOrZero]

def c8resp : VisionApiResponse :=
  ⟨[{ textAnns := some [
        { description := "ALL", boundingPoly := ⟨[]⟩ },
        { description := "Hi", boundingPoly := ⟨[⟨some 1, some 2⟩]⟩ }]
      fullTextAnn := none
      err := none }]⟩

theorem detectText_zero_box_witness :
    respErr c8resp = none ∧
    (respTextAnns c8resp).get? 1 = some { description := "Hi", boundingPoly := ⟨[⟨some 1, some 2⟩]⟩ } ∧
    convertToScreenCoordinates [⟨some 1, some 2⟩] 9 9 = none ∧
    (∃ t, processResponse c8resp 9 9 = .ok t ∧
      ∃ wd, t.words.get? 0 = some wd ∧
        wd.text = TextAnn.description { description := "Hi", boundingPoly := ⟨[⟨some 1, some 2⟩]⟩ } ∧
        wd.x = 0 ∧ wd.y = 0 ∧ wd.width = 0 ∧ wd.height = 0) :=
  ⟨rfl, rfl, rfl,
    detectText_zero_box c8resp 9 9 0 { description := "Hi", boundingPoly := ⟨[⟨some 1, some 2⟩]⟩ }
      rfl rfl rfl⟩

/-- C5: for every input and every possible transport behaviour, an absent
credential makes detectText fail with the configuration message before
issuing any network call: the call count is 0 and the message is the one
the orchestrator classifies as the missing-configuration kind. -/
theorem detectText_no_key (img : String) (w h : ℚ) (tr : TransportOutcome) :
    detectText none img w h tr = { outcome := .error cfgErrorMsg, networkCalls := 0 } ∧
    classifyAsConfig cfgErrorMsg = true :=
  ⟨rfl, by decide⟩

def c6resp : VisionApiResponse :=
  ⟨[{ textAnns := none, fullTextAnn := none, err := some { code := 7, message := "quota exceeded" } }]⟩

/-- C6 counterexample: a payload with error code 7 and message quota
exceeded on a successful transport. The thrown error message is the
provider message with a fixed prefix; the digit of the code does not occur
anywhere in it, so the error code is not preserved as the claim states. -/
theorem providerError_drops_code_cex :
    respErr c6resp = some { code := 7, message := "quota exceeded" } ∧
    (detectText (some "key") "img" 1 1 (.success c6resp)).outcome
      = .error "Vision API error: quota exceeded" ∧
    jsIncludes "Vision API error: quota exceeded" "7" = false :=
  ⟨rfl, rfl, by decide⟩

/-- C6 amended: on a successful transport whose payload carries a top-level
error object, detectText fails after its single network call with an error
that preserves the provider error message verbatim behind a fixed prefix;
the provider error code is only logged and is not part of the thrown
error. -/
theorem providerError_message (k img : String) (w h : ℚ)
    (result : VisionApiResponse) (e : ApiError)
    (hk : ¬ k = "") (he : respErr result = some e) :
    detectText (some k) img w h (.success result)
      = { outcome := .error ("Vision API error: " ++ e.message), networkCalls := 1 } := by
  have hp : processResponse result w h = .error ("Vision API error: " ++ e.message) := by
    unfold processResponse
    rw [he]
    rfl
  simp [detectText, hk, hp]

theorem providerError_message_witness :
    ¬ ("key" : String) = "" ∧
    respErr c6resp = some { code := 7, message := "quota exceeded" } ∧
    detectText (some "key") "img2" 2 3 (.success c6resp)
      = { outcome := .error ("Vision API error: " ++ ApiError.message { code := 7, message := "quota exceeded" })
          networkCalls := 1 } :=
  ⟨by decide, rfl,
    providerError_message "key" "img2" 2 3 c6resp { code := 7, message := "quota exceeded" }
      (by decide) rfl⟩

/-- C10: a parseable body whose responses array is empty does not make
detectText fail: it returns empty full text and no words after its one
network call, the same processing result as a response that has a first
element with no fields at all. -/
theorem detectText_empty_responses (k img : String) (w h : ℚ) (result : VisionApiResponse)
    (hk : ¬ k = "") (hre : result.responses = []) :
    detectText (some k) img w h (.success result)
      = { outcome := .ok { fullText := "", words := [] }, networkCalls := 1 } ∧
    processResponse result w h
      = processResponse ⟨[{ textAnns := none, fullTextAnn := none, err := none }]⟩ w h := by
  have hp : processResponse result w h = .ok { fullText := "", words := [] } := by
    unfold processResponse
    simp [respErr, respTextAnns, respFullTextAnn, firstResp, hre, jsOrString, buildWords]
  refine ⟨by simp [detectText, hk, hp], ?_⟩
  rw [hp]
  rfl

theorem detectText_empty_responses_witness :
    ¬ ("key" : String) = "" ∧ (⟨[]⟩ : VisionApiResponse).responses = [] ∧
    (detectText (some "key") "img" 5 6 (.success ⟨[]⟩)
      = { outcome := .ok { fullText := "", words := [] }, networkCalls := 1 } ∧
    processResponse ⟨[]⟩ 5 6
      = processResponse ⟨[{ textAnns := none, fullTextAnn := none, err := none }]⟩ 5 6) :=
  ⟨by decide, rfl, detectText_empty_responses "key" "img" 5 6 ⟨[]⟩ (by decide) rfl⟩

def c7state : CamState :=
  { capturedImageUri := some "photo.jpg", extractedText := none,
    isAnalyzing := true, analysisComplete := false }

/-- C7 counterexample: a cycle whose image preparation produced no base64
data, started from the state right after a capture. The cycle raises only
the generic dialog and substitutes no demo content, as the claim states,
but it does not return control to the Idle state: the finally block sets
analysisComplete, so the component shows the result surface with the reset
control and the capture control is gone. -/
theorem prepFailure_not_idle_cex :
    (analyzeImage 1 1 c7state none (Except.error "e")).2 = [AlertMsg.genericFailure] ∧
    (analyzeImage 1 1 c7state none (Except.error "e")).1.extractedText = none ∧
    isIdleState (analyzeImage 1 1 c7state none (Except.error "e")).1 = false ∧
    showsResultSurface (analyzeImage 1 1 c7state none (Except.error "e")).1 = true :=
  ⟨rfl, rfl, rfl, rfl⟩

/-- C7 amended: when image preparation yields no base64 data, the cycle is
fatal: only the generic message is shown and no demo content is
substituted, the stored result stays what it was; but instead of returning
to Idle, the cycle ends with analysisComplete set, so with a captured image
held the component shows the result surface with the reset control, and the
user reaches Idle only through the explicit reset. -/
theorem prepFailure_behavior (w h : ℚ) (s : CamState) (o : Except String ExtractedText)
    (hcap : s.capturedImageUri.isSome = true) :
    analyzeImage w h s none o
      = ({ s with isAnalyzing := false, analysisComplete := true }, [AlertMsg.genericFailure]) ∧
    (analyzeImage w h s none o).1.extractedText = s.extractedText ∧
    showsResultSurface (analyzeImage w h s none o).1 = true ∧
    isIdleState (analyzeImage w h s none o).1 = false := by
  refine ⟨rfl, rfl, ?_, ?_⟩
  · simp [showsResultSurface, analyzeImage, hcap]
  · simp [isIdleState, analyzeImage, captureControlEnabled]

theorem prepFailure_behavior_witness :
    (c7state.capturedImageUri).isSome = true ∧
    (analyzeImage 8 9 c7state none (Except.ok { fullText := "", words := [] })
      = ({ c7state with isAnalyzing := false, analysisComplete := true },
          [AlertMsg.genericFailure]) ∧
    (analyzeImage 8 9 c7state none (Except.ok { fullText := "", words := [] })).1.extractedText
      = c7state.extractedText ∧
    showsResultSurface (analyzeImage 8 9 c7state none (Except.ok { fullText := "", words := [] })).1 = true ∧
    isIdleState (analyzeImage 8 9 c7state none (Except.ok { fullText := "", words := [] })).1 = false) :=
  ⟨rfl, prepFailure_behavior 8 9 c7state (Except.ok { fullText := "", words := [] }) rfl⟩

/-- C9: the demo word boxes scale linearly with the target dimensions:
doubling the target width doubles every x and every width, and each box is
the fixed fraction of the supplied dimensions given in the source. -/
theorem demo_scales_linearly (w h : ℚ) :
    ((getDemoText (2 * w) h).words.map (fun wd => wd.x)
      = (getDemoText w h).words.map (fun wd => 2 * wd.x)) ∧
    ((getDemoText (2 * w) h).words.map (fun wd => wd.width)
      = (getDemoText w h).words.map (fun wd => 2 * wd.width)) ∧
    (getDemoText w h).words.map (fun wd => (wd.x, wd.y, wd.width, wd.height))
      = [(w * 0.1, h * 0.2, w * 0.2, h * 0.05),
         (w * 0.35, h * 0.2, w * 0.1, h * 0.05),
         (w * 0.5, h * 0.2, w * 0.15, h * 0.05)] := by
  refine ⟨?_, ?_, ?_⟩ <;> simp [getDemoText] <;> and_intros <;> ring1
